import Mathlib

/-!
Shallow embedding of `pkg/lang/ir/system.go` from the envd repository:
the environment-specification compiler that turns a `Graph` (SpecModel)
into an ordered build plan of llb steps.

The llb build state is modelled as the ordered list of emitted steps.
Ambient globals (`viper.GetString(flag.FlagDockerOrganization)` and
`version.GetGitTagFromVersion()`) are passed as explicit `org`/`tag`
string parameters.  Local file reads (`os.ReadFile`) are modelled by an
explicit filesystem map `String → Option String`.  A Go nil-pointer
dereference is modelled as `Option.none` at the result type.  The
`installConda` helper is defined in another file of the package and is
passed as an explicit function parameter.
-/

namespace Envd

/-- Cache-mount sharing mode (`llb.CacheMountShared`, `llb.CacheMountLocked`). -/
inductive CacheSharingMode where
  | shared
  | locked
  deriving Repr, DecidableEq

/-- A cache mount attached to a run step:
`AddMount(target, llb.Scratch(), llb.AsPersistentCacheDir(cacheID, mode))`. -/
structure Mount where
  target : String
  cacheID : String
  mode : CacheSharingMode
  deriving Repr, DecidableEq

/-- One emitted build step.  `Run` carries the shell command, the optional
`WithCustomName` annotation and its cache mounts; `User` is `llb.User`. -/
inductive Step where
  | FromImage (ref : String)
  | AddEnv (key value : String)
  | Run (command : String) (customName : Option String) (mounts : List Mount)
  | Mkdir (path : String) (mode : Nat) (parents : Bool) (uid gid : Int)
  | Mkfile (path : String) (mode : Nat) (content : String) (uid gid : Int)
  | Copy (source destination : String) (uid gid : Int)
  | User (name : String)
  deriving Repr, DecidableEq

/-- An llb build state: the ordered list of steps emitted so far. -/
abbrev State := List Step

/-- Model of `llb.ExecState`: a pending run step (command, custom name,
mounts) on top of a base state, before `.Root()` seals it. -/
structure ExecState where
  base : State
  command : String
  customName : Option String
  mounts : List Mount
  deriving Repr, DecidableEq

/-- Model of `root.Run(llb.Shlex(cmd), llb.WithCustomName(name))`. -/
def State.Run (s : State) (cmd : String) (name : Option String) : ExecState :=
  ⟨s, cmd, name, []⟩

/-- Model of `execState.Root()`: seal the pending run step onto the state. -/
def ExecState.Root (e : ExecState) : State :=
  e.base ++ [Step.Run e.command e.customName e.mounts]

/-- Model of `execState.Run(...)`: chain another run after the pending one. -/
def ExecState.Run (e : ExecState) (cmd : String) (name : Option String) : ExecState :=
  ⟨e.Root, cmd, name, []⟩

/-- Model of `run.AddMount(target, llb.Scratch(),
llb.AsPersistentCacheDir(id, mode))`. -/
def ExecState.AddMount (e : ExecState) (target : String) (id : String)
    (mode : CacheSharingMode) : ExecState :=
  { e with mounts := e.mounts ++ [⟨target, id, mode⟩] }

/-- Language field of the spec: name plus optional version. -/
structure Language where
  name : String
  version : Option String
  deriving Repr, DecidableEq

/-- A copy instruction with `Source` and `Destination`. -/
structure CopyInfo where
  source : String
  destination : String
  deriving Repr, DecidableEq

/-- The `Graph` (SpecModel): the environment description consumed by the
compiler, including the `uid`/`gid` fields that `compileBase` may rewrite. -/
structure Graph where
  OS : String
  Language : Language
  Image : Option String
  CUDA : Option String
  CUDNN : Option String
  UbuntuAPTSource : Option String
  SystemPackages : List String
  Exec : List String
  Copy : List CopyInfo
  PublicKeyPath : String
  uid : Int
  gid : Int
  deriving Repr, DecidableEq

/-- Fixed PATH augmentation string from `compileRun`. -/
def pathEnvValue : String :=
  "$PATH:/usr/local/sbin:/usr/local/bin:/usr/sbin:/usr/bin:/sbin:/bin:/opt/conda/bin:/usr/local/julia/bin:/opt/conda/envs/envd/bin"

/-- Wrapping of a command for the shell, as done by the
`fmt.Sprintf` calls in `compileRun` and `compileSystemPackages`. -/
def bashWrap (c : String) : String :=
  "bash -c \"" ++ c ++ "\""

/-- Model of `root.AddEnv(key, value)`. -/
def State.AddEnv (s : State) (key value : String) : State :=
  s ++ [Step.AddEnv key value]

/-- Model of `compileRun`: augment PATH and chain one shell run per
`Exec` entry, in input order. -/
def Graph.compileRun (g : Graph) (root : State) : State :=
  if g.Exec.length = 0 then root
  else
    let root := root.AddEnv "PATH" pathEnvValue
    match g.Exec with
    | [] => root
    | [c] => (root.Run (bashWrap c) none).Root
    | c :: cs =>
      let run := root.Run (bashWrap c) none
      (cs.foldl (fun run c => run.Run (bashWrap c) none) run).Root

/-- The apt cache directory mounted by `compileSystemPackages`. -/
def cacheDir : String := "/var/cache/apt"

/-- The apt metadata directory mounted by `compileSystemPackages`. -/
def cacheLibDir : String := "/var/lib/apt"

/-- Modelled from the spec: `CacheID` lives outside `system.go` (missing
from src); the spec says cache identifiers for mutable package directories
are a pure function of (directory path, environment identity), collision
free across unrelated directories.  Environment identity is modelled as
the OS and language name of the graph. -/
def Graph.CacheID (g : Graph) (dir : String) : String :=
  g.OS ++ "-" ++ g.Language.name ++ "-" ++ dir

/-- Model of the `strings.Builder` loop of `compileSystemPackages`: start
from the update-and-install command and append one " pkg" per package. -/
def systemPackagesCommand (pkgs : List String) : String :=
  pkgs.foldl (fun sb pkg => sb ++ (" " ++ pkg))
    "sudo apt-get update && sudo apt-get install -y --no-install-recommends"

/-- Model of `compileSystemPackages`: no-op on an empty package list,
otherwise a single shell run with two persistent shared cache mounts. -/
def Graph.compileSystemPackages (g : Graph) (root : State) : State :=
  if g.SystemPackages.length = 0 then root
  else
    let run := root.Run (bashWrap (systemPackagesCommand g.SystemPackages))
      (some ("apt-get install " ++ String.intercalate " " g.SystemPackages))
    let run := run.AddMount cacheDir (g.CacheID cacheDir) CacheSharingMode.shared
    let run := run.AddMount cacheLibDir (g.CacheID cacheLibDir) CacheSharingMode.shared
    run.Root

/-- Model of `compileCUDAPackages`: builds the accelerator image reference,
dereferencing both `g.CUDA` and `g.CUDNN`; `none` models the nil-pointer
dereference that occurs in Go when either field is nil. -/
def Graph.compileCUDAPackages (org tag : String) (g : Graph) : Option State :=
  match g.CUDA, g.CUDNN with
  | some cuda, some cudnn =>
    some [Step.FromImage ("docker.io/" ++ org ++ "/python:3.9-" ++ g.OS ++
      "-cuda" ++ cuda ++ "-cudnn" ++ cudnn ++ "-envd-" ++ tag)]
  | _, _ => none

/-- Base-image part of `compileBase` (reached only when `g.Image` is nil):
the language switch with the r-base uid/gid fix-up, or the accelerator
branch when either accelerator field is set.  Returns the base state and
the (possibly adjusted) graph; `none` propagates the nil-pointer
dereference of `compileCUDAPackages`.  An unmapped language name falls
through the switch, leaving the zero `llb.State` (no steps). -/
def Graph.baseImage (org tag : String) (g : Graph) : Option (State × Graph) :=
  if g.CUDA.isNone && g.CUDNN.isNone then
    if g.Language.name = "r" then
      let g := if g.gid = 1000 then { g with gid := 1001 } else g
      let g := if g.uid = 1000 then { g with uid := 1001 } else g
      some ([Step.FromImage ("docker.io/" ++ org ++ "/r-base:4.2-envd-" ++ tag)], g)
    else if g.Language.name = "python" then
      some ([Step.FromImage ("docker.io/" ++ org ++ "/python:3.9-ubuntu20.04-envd-" ++ tag)], g)
    else if g.Language.name = "julia" then
      some ([Step.FromImage ("docker.io/" ++ org ++ "/julia:1.8rc1-ubuntu20.04-envd-" ++ tag)], g)
    else
      some ([], g)
  else
    (g.compileCUDAPackages org tag).map (fun s => (s, g))

/-- Root-remap chain of `compileBase` for `uid == 0`: the seven chained
run steps, with their custom names, in source order. -/
def rootRemapChain (condaStage : State) : ExecState :=
  condaStage.Run ("groupadd -g " ++ toString (1001 : Int) ++ " envd")
      (some "[internal] still create group envd for root context")
    |>.Run ("useradd -p \"\" -u " ++ toString (1001 : Int) ++ " -g envd -s /bin/sh -m envd")
      (some "[internal] still create user envd for root context")
    |>.Run "usermod -s /bin/sh root"
      (some "[internal] set root default shell to /bin/sh")
    |>.Run "sed -i \"s/envd:x:1001:1001/envd:x:0:0/g\" /etc/passwd"
      (some "[internal] set envd uid to 0 as root")
    |>.Run "sed -i \"s./root./home/envd.g\" /etc/passwd"
      (some "[internal] set root home dir to /home/envd")
    |>.Run "sed -i \"s/envd:x:1001/envd:x:0/g\" /etc/group"
      (some "[internal] set envd group to 0 as root group")
    |>.Run "chown -R root:root /opt/conda"
      (some "[internal] configure user permissions")

/-- Normal user-provisioning chain of `compileBase` for `uid != 0`:
create group and user, add to sudoers, chown the runtime directories. -/
def userProvisionChain (condaStage : State) (uid gid : Int) : ExecState :=
  condaStage.Run ("groupadd -g " ++ toString gid ++ " envd")
      (some "[internal] create user group envd")
    |>.Run ("useradd -p \"\" -u " ++ toString uid ++ " -g envd -s /bin/sh -m envd")
      (some "[internal] create user envd")
    |>.Run "adduser envd sudo"
      (some "[internal] add user envd to sudoers")
    |>.Run "chown -R envd:envd /usr/local/lib"
      (some "[internal] configure user permissions")
    |>.Run "chown -R envd:envd /opt/conda"
      (some "[internal] configure user permissions")

/-- Model of `compileBase`.  A custom `Image` returns directly with no
provisioning; otherwise the base image is selected, conda installed
(`installConda` is defined in another file and passed explicitly; its
error is wrapped), and the uid-dependent provisioning chain emitted,
finishing with `llb.User("envd")`.  The returned graph carries the
uid/gid values as (possibly) rewritten by the r-base fix-up.  `none`
models a nil-pointer dereference. -/
def Graph.compileBase (org tag : String)
    (installConda : State → Except String State) (g : Graph) :
    Option (Except String (State × Graph)) :=
  match g.Image with
  | some img => some (Except.ok ([Step.FromImage img], g))
  | none =>
    match g.baseImage org tag with
    | none => none
    | some (base, g) =>
      match installConda base with
      | Except.error e => some (Except.error ("failed to install conda: " ++ e))
      | Except.ok condaStage =>
        some (Except.ok ((if g.uid = 0 then rootRemapChain condaStage
          else userProvisionChain condaStage g.uid g.gid).Root ++ [Step.User "envd"], g))

/-- Modelled from the spec: `config.ContainerAuthorizedKeysPath`, the
fixed authorized-keys file path constant defined outside src. -/
def ContainerAuthorizedKeysPath : String := "/var/envd/authorized_keys"

/-- Modelled from the spec: the package-level `DefaultGraph` value defined
outside src; `copySSHKey` reads only its `PublicKeyPath`. -/
def DefaultGraph : Graph :=
  { OS := "ubuntu20.04"
    Language := ⟨"python", none⟩
    Image := none
    CUDA := none
    CUDNN := none
    UbuntuAPTSource := none
    SystemPackages := []
    Exec := []
    Copy := []
    PublicKeyPath := "/root/.ssh/id_rsa.pub"
    uid := 1000
    gid := 1000 }

/-- Model of `strings.TrimSuffix` on the character sequence: drop one copy
of the suffix when the string ends with it, otherwise return the string
unchanged. -/
def trimSuffix (s suf : String) : String :=
  if suf.data.isSuffixOf s.data
  then ⟨s.data.take (s.data.length - suf.data.length)⟩ else s

/-- Model of `state.File(op)`. -/
def State.File (s : State) (step : Step) : State := s ++ [step]

/-- Model of `copySSHKey`: read the local public key at
`DefaultGraph.PublicKeyPath`, fail when unreadable, else strip one
trailing newline, append the " envd" marker and write the
authorized-keys file. -/
def Graph.copySSHKey (fs : String → Option String) (g : Graph) (root : State) :
    Except String State :=
  match fs DefaultGraph.PublicKeyPath with
  | none => Except.error "Cannot read public SSH key"
  | some bdat =>
    Except.ok ((root.File (Step.Mkdir "/var/envd" 0o755 true g.uid g.gid)).File
      (Step.Mkfile ContainerAuthorizedKeysPath 0o644
        (trimSuffix bdat "\n" ++ " envd") g.uid g.gid))

/-! Helper lemmas about the embedded operations. -/

/-- Result of the r-base uid/gid fix-up applied by `compileBase`. -/
def rFix (g : Graph) : Graph :=
  { g with uid := if g.uid = 1000 then 1001 else g.uid
           gid := if g.gid = 1000 then 1001 else g.gid }

/-- Step list produced by sealing `rootRemapChain`. -/
def rootRemapSteps : List Step :=
  [Step.Run ("groupadd -g " ++ toString (1001 : Int) ++ " envd")
     (some "[internal] still create group envd for root context") [],
   Step.Run ("useradd -p \"\" -u " ++ toString (1001 : Int) ++ " -g envd -s /bin/sh -m envd")
     (some "[internal] still create user envd for root context") [],
   Step.Run "usermod -s /bin/sh root"
     (some "[internal] set root default shell to /bin/sh") [],
   Step.Run "sed -i \"s/envd:x:1001:1001/envd:x:0:0/g\" /etc/passwd"
     (some "[internal] set envd uid to 0 as root") [],
   Step.Run "sed -i \"s./root./home/envd.g\" /etc/passwd"
     (some "[internal] set root home dir to /home/envd") [],
   Step.Run "sed -i \"s/envd:x:1001/envd:x:0/g\" /etc/group"
     (some "[internal] set envd group to 0 as root group") [],
   Step.Run "chown -R root:root /opt/conda"
     (some "[internal] configure user permissions") []]

/-- Step list produced by sealing `userProvisionChain`. -/
def userProvisionSteps (uid gid : Int) : List Step :=
  [Step.Run ("groupadd -g " ++ toString gid ++ " envd")
     (some "[internal] create user group envd") [],
   Step.Run ("useradd -p \"\" -u " ++ toString uid ++ " -g envd -s /bin/sh -m envd")
     (some "[internal] create user envd") [],
   Step.Run "adduser envd sudo"
     (some "[internal] add user envd to sudoers") [],
   Step.Run "chown -R envd:envd /usr/local/lib"
     (some "[internal] configure user permissions") [],
   Step.Run "chown -R envd:envd /opt/conda"
     (some "[internal] configure user permissions") []]

lemma rootRemapChain_Root (s : State) :
    (rootRemapChain s).Root = s ++ rootRemapSteps := by
  simp [rootRemapChain, rootRemapSteps, ExecState.Run, ExecState.Root, State.Run]

lemma userProvisionChain_Root (s : State) (uid gid : Int) :
    (userProvisionChain s uid gid).Root = s ++ userProvisionSteps uid gid := by
  simp [userProvisionChain, userProvisionSteps, ExecState.Run, ExecState.Root, State.Run]

lemma baseImage_r (org tag : String) (g : Graph)
    (hc : g.CUDA = none) (hd : g.CUDNN = none) (hn : g.Language.name = "r") :
    g.baseImage org tag =
      some ([Step.FromImage ("docker.io/" ++ org ++ "/r-base:4.2-envd-" ++ tag)], rFix g) := by
  obtain ⟨OS, lang, img, cuda, cudnn, apt, sp, ex, cp, pk, u, gd⟩ := g
  subst hc
  subst hd
  simp only at hn
  by_cases h1 : gd = 1000 <;> by_cases h2 : u = 1000 <;>
    simp [Graph.baseImage, rFix, hn, h1, h2]

lemma baseImage_accel (org tag : String) (g : Graph) (b : State) (g2 : Graph)
    (hb : ¬(g.CUDA.isNone && g.CUDNN.isNone) = true)
    (h : g.baseImage org tag = some (b, g2)) : g2 = g := by
  unfold Graph.baseImage at h
  rw [if_neg hb] at h
  cases hcp : g.compileCUDAPackages org tag <;> rw [hcp] at h <;> simp at h
  exact h.2.symm

lemma baseImage_not_r (org tag : String) (g : Graph) (b : State) (g2 : Graph)
    (hn : g.Language.name ≠ "r")
    (h : g.baseImage org tag = some (b, g2)) : g2 = g := by
  unfold Graph.baseImage at h
  by_cases hb : (g.CUDA.isNone && g.CUDNN.isNone) = true
  · rw [if_pos hb, if_neg hn] at h
    by_cases hp : g.Language.name = "python"
    · rw [if_pos hp] at h
      simp at h
      exact h.2.symm
    · rw [if_neg hp] at h
      by_cases hj : g.Language.name = "julia"
      · rw [if_pos hj] at h
        simp at h
        exact h.2.symm
      · rw [if_neg hj] at h
        simp at h
        exact h.2.symm
  · rw [if_neg hb] at h
    cases hcp : g.compileCUDAPackages org tag <;> rw [hcp] at h <;> simp at h
    exact h.2.symm

lemma baseImage_uid (org tag : String) (g : Graph) (b : State) (g2 : Graph)
    (h : g.baseImage org tag = some (b, g2)) :
    g2.uid = g.uid ∨ (g.uid = 1000 ∧ g2.uid = 1001) := by
  by_cases hb : (g.CUDA.isNone && g.CUDNN.isNone) = true
  · by_cases hn : g.Language.name = "r"
    · rw [Bool.and_eq_true] at hb
      have hcu : g.CUDA = none := Option.isNone_iff_eq_none.mp hb.1
      have hcd : g.CUDNN = none := Option.isNone_iff_eq_none.mp hb.2
      rw [baseImage_r org tag g hcu hcd hn] at h
      simp at h
      by_cases hu : g.uid = 1000
      · right
        refine ⟨hu, ?_⟩
        rw [← h.2]
        simp [rFix, hu]
      · left
        rw [← h.2]
        simp [rFix, hu]
    · left
      rw [baseImage_not_r org tag g b g2 hn h]
  · left
    rw [baseImage_accel org tag g b g2 hb h]

/-- A step is user-provisioning when it runs a shell command or switches
the active user. -/
def Step.isProvisioning : Step → Bool
  | Step.Run _ _ _ => true
  | Step.User _ => true
  | _ => false

/-! Claim theorems. -/

/-- C1: for every SpecModel with uid 0 and no image override, a successful
base compilation ends with exactly the fixed root-remap command sequence:
group creation at gid 1001, user creation at uid 1001, root shell change,
the passwd uid substitution to 0, the passwd home relocation to /home/envd,
the group gid substitution to 0, and the recursive chown of /opt/conda to
root, in that order (followed only by the final user switch); the emitted
substitution commands set both the uid and gid of envd to 0. -/
theorem c1_root_remap_fixed_order (org tag : String)
    (installConda : State → Except String State) (g : Graph)
    (st : State) (g' : Graph)
    (h0 : g.uid = 0) (hi : g.Image = none)
    (hc : Graph.compileBase org tag installConda g = some (Except.ok (st, g'))) :
    ∃ pre : State, st = pre ++ (rootRemapSteps ++ [Step.User "envd"]) := by
  unfold Graph.compileBase at hc
  rw [hi] at hc
  cases hb : g.baseImage org tag with
  | none =>
    rw [hb] at hc
    simp at hc
  | some p =>
    obtain ⟨base, g2⟩ := p
    rw [hb] at hc
    simp only [] at hc
    cases hic : installConda base with
    | error e =>
      rw [hic] at hc
      simp at hc
    | ok condaStage =>
      rw [hic] at hc
      simp only [] at hc
      have hu : g2.uid = 0 := by
        rcases baseImage_uid org tag g base g2 hb with h | h
        · rw [h, h0]
        · rw [h0] at h
          exact absurd h.1 (by decide)
      rw [if_pos hu] at hc
      simp at hc
      refine ⟨condaStage, ?_⟩
      rw [← hc.1, rootRemapChain_Root, List.append_assoc]

def c1Graph : Graph :=
  { OS := "ubuntu20.04"
    Language := ⟨"python", none⟩
    Image := none
    CUDA := none
    CUDNN := none
    UbuntuAPTSource := none
    SystemPackages := []
    Exec := []
    Copy := []
    PublicKeyPath := "/k"
    uid := 0
    gid := 0 }

/-- Witness for C1 at a concrete root-uid SpecModel. -/
theorem c1_root_remap_fixed_order_witness :
    ∃ pre : State,
      ([Step.FromImage "docker.io/o/python:3.9-ubuntu20.04-envd-t"] ++
        (rootRemapSteps ++ [Step.User "envd"])) = pre ++ (rootRemapSteps ++ [Step.User "envd"]) :=
  c1_root_remap_fixed_order "o" "t" (fun s => Except.ok s) c1Graph
    ([Step.FromImage "docker.io/o/python:3.9-ubuntu20.04-envd-t"] ++
      (rootRemapSteps ++ [Step.User "envd"])) c1Graph rfl rfl (by rfl)

/-- C2: with a custom image override, base compilation returns exactly that
image: the output plan is the single base-image step (so it holds no
provisioning step), and the graph, hence its uid and gid, is returned
unchanged. -/
theorem c2_custom_image_passthrough (org tag : String)
    (installConda : State → Except String State) (g : Graph) (img : String)
    (hi : g.Image = some img) :
    Graph.compileBase org tag installConda g = some (Except.ok ([Step.FromImage img], g)) ∧
    (∀ s ∈ ([Step.FromImage img] : State), s.isProvisioning = false) := by
  constructor
  · unfold Graph.compileBase
    rw [hi]
  · intro s hs
    simp at hs
    rw [hs]
    rfl

def c2Graph : Graph :=
  { OS := "ubuntu20.04"
    Language := ⟨"python", none⟩
    Image := some "nvidia/cuda:11.6-base"
    CUDA := none
    CUDNN := none
    UbuntuAPTSource := none
    SystemPackages := []
    Exec := []
    Copy := []
    PublicKeyPath := "/k"
    uid := 1234
    gid := 4321 }

/-- Witness for C2 at a concrete SpecModel with a custom image. -/
theorem c2_custom_image_passthrough_witness :
    Graph.compileBase "o" "t" (fun s => Except.ok s) c2Graph =
      some (Except.ok ([Step.FromImage "nvidia/cuda:11.6-base"], c2Graph)) ∧
    (∀ s ∈ ([Step.FromImage "nvidia/cuda:11.6-base"] : State), s.isProvisioning = false) :=
  c2_custom_image_passthrough "o" "t" (fun s => Except.ok s) c2Graph
    "nvidia/cuda:11.6-base" rfl

def c3Graph : Graph :=
  { OS := "ubuntu20.04"
    Language := ⟨"go", none⟩
    Image := none
    CUDA := none
    CUDNN := none
    UbuntuAPTSource := none
    SystemPackages := []
    Exec := []
    Copy := []
    PublicKeyPath := "/k"
    uid := 501
    gid := 501 }

/-- C3 counterexample: for the unmapped language name "go" (no image
override, no accelerator fields), base compilation does not fail at all —
the language switch falls through, leaving the zero base state, and a
successful plan is returned. -/
theorem c3_unknown_language_no_error :
    Graph.compileBase "o" "t" (fun s => Except.ok s) c3Graph =
      some (Except.ok (userProvisionSteps 501 501 ++ [Step.User "envd"], c3Graph)) := by
  rfl

/-- C3 amended: for a SpecModel with no image override, both accelerator
fields absent, and a language name that is none of r, python and julia,
base compilation does not return a ConfigError: the switch leaves the zero
base state and compilation proceeds, succeeding whenever conda
installation succeeds on it. -/
theorem c3_unknown_language_falls_through (org tag : String)
    (installConda : State → Except String State) (g : Graph) (s0 : State)
    (hi : g.Image = none) (hcu : g.CUDA = none) (hcd : g.CUDNN = none)
    (h1 : g.Language.name ≠ "r") (h2 : g.Language.name ≠ "python")
    (h3 : g.Language.name ≠ "julia")
    (hic : installConda [] = Except.ok s0) :
    ∃ st, Graph.compileBase org tag installConda g = some (Except.ok (st, g)) := by
  have hb : g.baseImage org tag = some ([], g) := by
    unfold Graph.baseImage
    rw [hcu, hcd]
    simp [h1, h2, h3]
  unfold Graph.compileBase
  rw [hi, hb]
  simp only []
  rw [hic]
  simp only []
  by_cases hu : g.uid = 0
  · exact ⟨_, by rw [if_pos hu]⟩
  · exact ⟨_, by rw [if_neg hu]⟩

/-- Witness for the amended C3 at a concrete SpecModel. -/
theorem c3_unknown_language_falls_through_witness :
    ∃ st, Graph.compileBase "o" "t" (fun s => Except.ok s) c3Graph =
      some (Except.ok (st, c3Graph)) :=
  c3_unknown_language_falls_through "o" "t" (fun s => Except.ok s) c3Graph []
    rfl rfl rfl (by decide) (by decide) (by decide) rfl

/-- C4: for the r base image with caller-supplied uid and gid both 1000
(no image override, no accelerator), a successful base compilation returns
uid and gid 1001 and every provisioning command uses 1001 (the normal,
non-root chain at 1001:1001); and the adjustment happens only in the r
case: for any other language name the returned uid and gid equal the
inputs. -/
theorem c4_r_base_uid_gid_bump (org tag : String)
    (installConda : State → Except String State) :
    (∀ g st g', g.Language.name = "r" → g.Image = none → g.CUDA = none →
      g.CUDNN = none → g.uid = 1000 → g.gid = 1000 →
      Graph.compileBase org tag installConda g = some (Except.ok (st, g')) →
      g'.uid = 1001 ∧ g'.gid = 1001 ∧
        ∃ pre, st = pre ++ (userProvisionSteps 1001 1001 ++ [Step.User "envd"])) ∧
    (∀ g st g', g.Language.name ≠ "r" →
      Graph.compileBase org tag installConda g = some (Except.ok (st, g')) →
      g'.uid = g.uid ∧ g'.gid = g.gid) := by
  constructor
  · intro g st g' hn hi hcu hcd hu10 hg10 hc
    have hb := baseImage_r org tag g hcu hcd hn
    have hfix : rFix g = { g with uid := 1001, gid := 1001 } := by
      simp [rFix, hu10, hg10]
    unfold Graph.compileBase at hc
    rw [hi, hb] at hc
    simp only [] at hc
    cases hic : installConda
        [Step.FromImage ("docker.io/" ++ org ++ "/r-base:4.2-envd-" ++ tag)] with
    | error e =>
      rw [hic] at hc
      simp at hc
    | ok condaStage =>
      rw [hic] at hc
      simp only [] at hc
      have hnz : ¬(rFix g).uid = 0 := by
        rw [hfix]
        simp
      rw [if_neg hnz, hfix] at hc
      simp at hc
      obtain ⟨hst, hg'⟩ := hc
      refine ⟨?_, ?_, condaStage, ?_⟩
      · rw [← hg']
      · rw [← hg']
      · rw [← hst, userProvisionChain_Root, List.append_assoc]
  · intro g st g' hn hc
    unfold Graph.compileBase at hc
    cases hi : g.Image with
    | some img =>
      rw [hi] at hc
      simp at hc
      rw [← hc.2]
      exact ⟨rfl, rfl⟩
    | none =>
      rw [hi] at hc
      cases hb : g.baseImage org tag with
      | none =>
        rw [hb] at hc
        simp at hc
      | some p =>
        obtain ⟨base, g2⟩ := p
        rw [hb] at hc
        simp only [] at hc
        have hg2 : g2 = g := baseImage_not_r org tag g base g2 hn hb
        cases hic : installConda base with
        | error e =>
          rw [hic] at hc
          simp at hc
        | ok condaStage =>
          rw [hic] at hc
          simp only [] at hc
          by_cases hu : g2.uid = 0
          · rw [if_pos hu] at hc
            simp at hc
            rw [← hc.2, hg2]
            exact ⟨rfl, rfl⟩
          · rw [if_neg hu] at hc
            simp at hc
            rw [← hc.2, hg2]
            exact ⟨rfl, rfl⟩

def c4rGraph : Graph :=
  { OS := "ubuntu20.04"
    Language := ⟨"r", none⟩
    Image := none
    CUDA := none
    CUDNN := none
    UbuntuAPTSource := none
    SystemPackages := []
    Exec := []
    Copy := []
    PublicKeyPath := "/k"
    uid := 1000
    gid := 1000 }

def c4rGraphFixed : Graph := { c4rGraph with uid := 1001, gid := 1001 }

def c4rState : State :=
  [Step.FromImage "docker.io/o/r-base:4.2-envd-t"] ++
    (userProvisionSteps 1001 1001 ++ [Step.User "envd"])

/-- Witness for C4 at the concrete r SpecModel with uid and gid 1000. -/
theorem c4_r_base_uid_gid_bump_witness :
    c4rGraphFixed.uid = 1001 ∧ c4rGraphFixed.gid = 1001 ∧
      ∃ pre, c4rState = pre ++ (userProvisionSteps 1001 1001 ++ [Step.User "envd"]) :=
  (c4_r_base_uid_gid_bump "o" "t" (fun s => Except.ok s)).1 c4rGraph c4rState
    c4rGraphFixed rfl rfl rfl rfl rfl rfl (by rfl)

lemma chain_Root (e : ExecState) (cs : List String) :
    (cs.foldl (fun run c => run.Run (bashWrap c) none) e).Root =
      e.Root ++ cs.map (fun c => Step.Run (bashWrap c) none []) := by
  induction cs generalizing e with
  | nil => simp
  | cons c cs ih =>
    simp only [List.foldl_cons, List.map_cons]
    rw [ih]
    simp [ExecState.Run, ExecState.Root]

/-- C5: the PATH augmentation step (with the exact fixed string) and the
shell-run steps appear in the command-runner output exactly when `Exec` is
non-empty, and then there is exactly one shell run per `Exec` entry,
chained in input order. -/
theorem c5_run_steps_iff_exec (g : Graph) (root : State) :
    (g.Exec = [] → g.compileRun root = root) ∧
    (g.Exec ≠ [] → g.compileRun root =
      root ++ [Step.AddEnv "PATH" pathEnvValue] ++
        g.Exec.map (fun c => Step.Run (bashWrap c) none [])) := by
  constructor
  · intro h
    simp [Graph.compileRun, h]
  · intro h
    match hE : g.Exec with
    | [] => exact absurd hE h
    | [c] =>
      simp [Graph.compileRun, hE, State.AddEnv, State.Run, ExecState.Root,
        List.append_assoc]
    | c :: c2 :: cs =>
      simp only [Graph.compileRun, hE, List.length_cons]
      rw [if_neg (by simp)]
      rw [chain_Root]
      simp [State.AddEnv, State.Run, ExecState.Root, ExecState.Run,
        List.append_assoc]

def c5Graph : Graph :=
  { OS := "ubuntu20.04"
    Language := ⟨"python", none⟩
    Image := none
    CUDA := none
    CUDNN := none
    UbuntuAPTSource := none
    SystemPackages := []
    Exec := ["make build", "make test"]
    Copy := []
    PublicKeyPath := "/k"
    uid := 1000
    gid := 1000 }

def c5EmptyGraph : Graph := { c5Graph with Exec := [] }

/-- Witness for C5: an empty exec list leaves the state unchanged and a
two-element exec list yields the PATH step plus two chained shell runs. -/
theorem c5_run_steps_iff_exec_witness :
    c5EmptyGraph.compileRun [] = [] ∧
    c5Graph.compileRun [] =
      [] ++ [Step.AddEnv "PATH" pathEnvValue] ++
        c5Graph.Exec.map (fun c => Step.Run (bashWrap c) none []) :=
  ⟨(c5_run_steps_iff_exec c5EmptyGraph []).1 rfl,
   (c5_run_steps_iff_exec c5Graph []).2 (by decide)⟩

/-- Space-prefixed concatenation of a package list, the specification-side
reading of the install command suffix. -/
def spaceJoined : List String → String
  | [] => ""
  | p :: ps => " " ++ p ++ spaceJoined ps

lemma foldl_spaceJoined (pkgs : List String) (s : String) :
    pkgs.foldl (fun sb pkg => sb ++ (" " ++ pkg)) s = s ++ spaceJoined pkgs := by
  induction pkgs generalizing s with
  | nil => simp [spaceJoined]
  | cons p ps ih =>
    simp only [List.foldl_cons, spaceJoined, ih]
    simp [String.append_assoc]

lemma systemPackagesCommand_eq (pkgs : List String) :
    systemPackagesCommand pkgs =
      "sudo apt-get update && sudo apt-get install -y --no-install-recommends" ++
        spaceJoined pkgs :=
  foldl_spaceJoined pkgs _

/-- C6: the package-installer stage is the identity on an empty package
list; on a non-empty list it emits exactly one shell step whose command is
the index update followed by a non-interactive install listing every
package name in input order, carrying exactly two persistent shared cache
mounts at the package cache directory and the metadata directory. -/
theorem c6_system_packages_single_step (g : Graph) (root : State) :
    (g.SystemPackages = [] → g.compileSystemPackages root = root) ∧
    (g.SystemPackages ≠ [] → g.compileSystemPackages root =
      root ++ [Step.Run
        (bashWrap ("sudo apt-get update && sudo apt-get install -y --no-install-recommends" ++
          spaceJoined g.SystemPackages))
        (some ("apt-get install " ++ String.intercalate " " g.SystemPackages))
        [⟨cacheDir, g.CacheID cacheDir, CacheSharingMode.shared⟩,
         ⟨cacheLibDir, g.CacheID cacheLibDir, CacheSharingMode.shared⟩]]) := by
  constructor
  · intro h
    simp [Graph.compileSystemPackages, h]
  · intro h
    have hl : ¬g.SystemPackages.length = 0 := by
      simpa using h
    simp only [Graph.compileSystemPackages, if_neg hl]
    rw [systemPackagesCommand_eq]
    simp [State.Run, ExecState.AddMount, ExecState.Root]

def c6Graph : Graph :=
  { OS := "ubuntu20.04"
    Language := ⟨"python", none⟩
    Image := none
    CUDA := none
    CUDNN := none
    UbuntuAPTSource := none
    SystemPackages := ["vim", "git"]
    Exec := []
    Copy := []
    PublicKeyPath := "/k"
    uid := 1000
    gid := 1000 }

/-- Witness for C6 at systemPackages = [vim, git]: one shell step whose
command lists vim then git, with the two shared cache mounts. -/
theorem c6_system_packages_single_step_witness :
    c6Graph.compileSystemPackages [] =
      [Step.Run
        (bashWrap "sudo apt-get update && sudo apt-get install -y --no-install-recommends vim git")
        (some "apt-get install vim git")
        [⟨cacheDir, c6Graph.CacheID cacheDir, CacheSharingMode.shared⟩,
         ⟨cacheLibDir, c6Graph.CacheID cacheLibDir, CacheSharingMode.shared⟩]] :=
  (c6_system_packages_single_step c6Graph []).2 (by decide)

lemma append_cancel_left_string (s a b : String) (h : s ++ a = s ++ b) : a = b := by
  have hd := congrArg String.data h
  simp only [String.data_append] at hd
  exact String.ext (List.append_cancel_left hd)

/-- C7: cache identifiers of the two package-install mounts are a pure
function of the directory path and the environment identity: compiling the
same SpecModel twice yields identical package-install output (hence
identical cache identifiers), and within one compilation the identifier
for the cache directory differs from the identifier for the metadata
directory. -/
theorem c7_cache_id_stable_and_distinct (g g' : Graph) (root : State) (h : g = g') :
    g.compileSystemPackages root = g'.compileSystemPackages root ∧
    g.CacheID cacheDir = g'.CacheID cacheDir ∧
    g.CacheID cacheLibDir = g'.CacheID cacheLibDir ∧
    g.CacheID cacheDir ≠ g.CacheID cacheLibDir := by
  subst h
  refine ⟨rfl, rfl, rfl, ?_⟩
  intro hEq
  unfold Graph.CacheID at hEq
  have hdirs := append_cancel_left_string _ _ _ hEq
  exact absurd hdirs (by decide)

/-- Witness for C7 at a concrete SpecModel. -/
theorem c7_cache_id_stable_and_distinct_witness :
    c6Graph.compileSystemPackages [] = c6Graph.compileSystemPackages [] ∧
    c6Graph.CacheID cacheDir = c6Graph.CacheID cacheDir ∧
    c6Graph.CacheID cacheLibDir = c6Graph.CacheID cacheLibDir ∧
    c6Graph.CacheID cacheDir ≠ c6Graph.CacheID cacheLibDir :=
  c7_cache_id_stable_and_distinct c6Graph c6Graph [] rfl

lemma trimSuffix_append_newline (base : String) :
    trimSuffix (base ++ "\n") "\n" = base := by
  unfold trimSuffix
  have h1 : ("\n" : String).data = ['\n'] := by decide
  have hd : (base ++ "\n").data = base.data ++ ['\n'] := by
    simp [String.data_append, h1]
  rw [h1, hd]
  rw [if_pos (by simp [List.isSuffixOf_iff_suffix])]
  have h2 : (base.data ++ ['\n']).length - (['\n'] : List Char).length =
      base.data.length := by
    simp
  rw [h2, List.take_left]

lemma trimSuffix_no_newline (s : String) (h : s.data.getLast? ≠ some '\n') :
    trimSuffix s "\n" = s := by
  unfold trimSuffix
  rw [if_neg]
  rw [show ("\n" : String).data = ['\n'] by decide]
  intro hsuf
  rw [List.isSuffixOf_iff_suffix] at hsuf
  obtain ⟨t, ht⟩ := hsuf
  exact h (by rw [← ht]; exact List.getLast?_concat t)

/-- C8: for every readable credential file, the payload written at the
container's authorized-keys path is the file content with a single
trailing newline stripped and the literal marker " envd" appended:
content of the form base plus newline yields base plus marker, and
content with no trailing newline is used verbatim plus marker. -/
theorem c8_ssh_key_payload (fs : String → Option String) (g : Graph)
    (root : State) :
    (∀ base, fs DefaultGraph.PublicKeyPath = some (base ++ "\n") →
      Graph.copySSHKey fs g root = Except.ok (root ++
        [Step.Mkdir "/var/envd" 0o755 true g.uid g.gid,
         Step.Mkfile ContainerAuthorizedKeysPath 0o644 (base ++ " envd")
           g.uid g.gid])) ∧
    (∀ content, fs DefaultGraph.PublicKeyPath = some content →
      content.data.getLast? ≠ some '\n' →
      Graph.copySSHKey fs g root = Except.ok (root ++
        [Step.Mkdir "/var/envd" 0o755 true g.uid g.gid,
         Step.Mkfile ContainerAuthorizedKeysPath 0o644 (content ++ " envd")
           g.uid g.gid])) := by
  constructor
  · intro base h
    unfold Graph.copySSHKey
    rw [h]
    simp only [trimSuffix_append_newline, State.File, List.append_assoc]
    rfl
  · intro content h hnl
    unfold Graph.copySSHKey
    rw [h]
    simp only [trimSuffix_no_newline content hnl, State.File, List.append_assoc]
    rfl

def c8fs : String → Option String :=
  fun p => if p = DefaultGraph.PublicKeyPath then some "ssh-ed25519 AAAA...\n" else none

def c8fs2 : String → Option String :=
  fun p => if p = DefaultGraph.PublicKeyPath then some "ssh-rsa BBBB" else none

/-- Witness for C8: content with a trailing newline yields the payload
with the newline stripped and the marker appended; content without one is
kept whole. -/
theorem c8_ssh_key_payload_witness :
    (Graph.copySSHKey c8fs c1Graph [] = Except.ok ([] ++
      [Step.Mkdir "/var/envd" 0o755 true c1Graph.uid c1Graph.gid,
       Step.Mkfile ContainerAuthorizedKeysPath 0o644 ("ssh-ed25519 AAAA..." ++ " envd")
         c1Graph.uid c1Graph.gid])) ∧
    (Graph.copySSHKey c8fs2 c1Graph [] = Except.ok ([] ++
      [Step.Mkdir "/var/envd" 0o755 true c1Graph.uid c1Graph.gid,
       Step.Mkfile ContainerAuthorizedKeysPath 0o644 ("ssh-rsa BBBB" ++ " envd")
         c1Graph.uid c1Graph.gid])) :=
  ⟨(c8_ssh_key_payload c8fs c1Graph []).1 "ssh-ed25519 AAAA..." (by decide),
   (c8_ssh_key_payload c8fs2 c1Graph []).2 "ssh-rsa BBBB" rfl (by decide)⟩

def c9Graph : Graph :=
  { OS := "ubuntu20.04"
    Language := ⟨"python", none⟩
    Image := none
    CUDA := none
    CUDNN := none
    UbuntuAPTSource := none
    SystemPackages := []
    Exec := []
    Copy := []
    PublicKeyPath := "/tmp/mykey.pub"
    uid := 1000
    gid := 1000 }

def c9fs : String → Option String :=
  fun p => if p = "/tmp/mykey.pub" then some "ssh-rsa AAAA" else none

/-- C9 counterexample: a SpecModel whose own publicKeyPath is readable
still fails, because the implementation reads the path of the package
default graph, not the compiled SpecModel's. -/
theorem c9_reads_default_graph_counterexample :
    c9fs c9Graph.PublicKeyPath = some "ssh-rsa AAAA" ∧
    Graph.copySSHKey c9fs c9Graph [] = Except.error "Cannot read public SSH key" :=
  ⟨rfl, rfl⟩

/-- C9 amended: the credential installer reads the local file at the
package default graph's publicKeyPath (not the compiled SpecModel's), and
returns an IOError if and only if that file is unreadable. -/
theorem c9_reads_default_key_path (fs : String → Option String) (g : Graph)
    (root : State) :
    (∃ e, Graph.copySSHKey fs g root = Except.error e) ↔
      fs DefaultGraph.PublicKeyPath = none := by
  unfold Graph.copySSHKey
  cases hf : fs DefaultGraph.PublicKeyPath <;> simp [hf]

lemma baseImage_none_iff (org tag : String) (g : Graph) :
    g.baseImage org tag = none ↔ g.CUDA.isSome ≠ g.CUDNN.isSome := by
  unfold Graph.baseImage
  cases hcu : g.CUDA <;> cases hcd : g.CUDNN <;>
    simp only [Graph.compileCUDAPackages, hcu, hcd, Option.isSome_none,
      Option.isSome_some, Option.isNone_none, Option.isNone_some,
      Bool.and_self, Bool.and_false, Bool.false_and, if_true, if_false,
      Option.map_none, Option.map_some, ne_eq]
  · constructor
    · intro hnone
      exfalso
      revert hnone
      split
      · simp
      · split
        · simp
        · split <;> simp
    · simp
  · simp
  · simp
  · simp

/-- C10: base compilation hits a nil-pointer dereference exactly when the
image override is absent and exactly one of the two accelerator fields is
present — the accelerator branch dereferences both fields, so base
compilation is panic-free only when the two accelerator fields are both
present or both absent. -/
theorem c10_accelerator_nil_deref (org tag : String)
    (installConda : State → Except String State) (g : Graph) :
    Graph.compileBase org tag installConda g = none ↔
      (g.Image = none ∧ g.CUDA.isSome ≠ g.CUDNN.isSome) := by
  cases hi : g.Image with
  | some img => simp [Graph.compileBase, hi]
  | none =>
    rw [← baseImage_none_iff org tag g]
    unfold Graph.compileBase
    rw [hi]
    simp only []
    cases hb : g.baseImage org tag with
    | none => simp [hb]
    | some p =>
      obtain ⟨base, g2⟩ := p
      simp only []
      cases hic : installConda base <;> simp [hic, hb]

end Envd
